import Mathlib

/-!
Verification development for the resume-parsing core of `main.py`.

The core operates on plain text.  Text is modelled as `List Char`; Python's
`str.split('\n')`, `str.strip()`, `str.lower()` and the specific regular
expressions used by the extractors are modelled by bespoke executable
functions, each faithful to the exact pattern and flags used at the call
site in the source (leftmost match, ordered alternation, greedy classes
with the backtracking the pattern admits).  Fallible code is modelled with
`Except`: `re.split` applied to a pattern containing capturing groups
inserts `None` items into its result list (one per group and match), and
the subsequent `entry.strip()` on such an item raises `AttributeError`.
-/

set_option maxHeartbeats 4000000
set_option maxRecDepth 100000

abbrev Str := List Char

/-- Characters Python's `str.strip()` removes (ASCII whitespace). -/
def isPyWs (c : Char) : Bool :=
  c = ' ' || c = '\t' || c = '\n' || c = '\r' || c = '\x0b' || c = '\x0c'

/-- Python `str.lower()` (ASCII case folding suffices for the texts involved). -/
def pyLower (s : Str) : Str := s.map Char.toLower

/-- Python `str.strip()` with no argument. -/
def pyStrip (s : Str) : Str :=
  ((s.dropWhile isPyWs).reverse.dropWhile isPyWs).reverse

/-- Python `str.strip(chars)`: remove characters of `set` from both ends. -/
def pyStripSet (set : List Char) (s : Str) : Str :=
  ((s.dropWhile (set.contains ·)).reverse.dropWhile (set.contains ·)).reverse

def pySplitLinesAux (acc : Str) : Str → List Str
  | [] => [acc.reverse]
  | c :: rest =>
    if c = '\n' then acc.reverse :: pySplitLinesAux [] rest
    else pySplitLinesAux (c :: acc) rest

/-- Python `text.split('\n')` (keeps empty pieces, including a trailing one). -/
def pySplitLines (s : Str) : List Str := pySplitLinesAux [] s

def strStartsWith : Str → Str → Bool
  | [], _ => true
  | _ :: _, [] => false
  | p :: ps, c :: cs => p = c && strStartsWith ps cs

/-- Python's `needle in hay` substring test. -/
def isSubstrOf (n : Str) : Str → Bool
  | [] => strStartsWith n []
  | c :: rest => strStartsWith n (c :: rest) || isSubstrOf n rest

/-- `any(kw in s for kw in kws)`. -/
def containsAny (kws : List Str) (s : Str) : Bool :=
  kws.any (fun k => isSubstrOf k s)

/-- Regex `\w` on the ASCII texts involved. -/
def isWordChar (c : Char) : Bool := c.isAlphanum || c = '_'

/-- Word-ness of the character at one side of a position (`none` = outside the text). -/
def wordO : Option Char → Bool
  | none => false
  | some c => isWordChar c

def ciEqCh (a b : Char) : Bool := a.toLower = b.toLower

/-- Case-insensitive literal match; returns the consumed original text and the rest. -/
def eatCI : Str → Str → Option (Str × Str)
  | [], u => some ([], u)
  | _ :: _, [] => none
  | p :: ps, c :: cs =>
    if ciEqCh p c then (eatCI ps cs).map (fun pr => (c :: pr.1, pr.2)) else none

/-- Case-insensitive pattern match where `'.'` in the pattern is the regex
wildcard (any character except `'\n'`); returns the rest of the text. -/
def matchDotCI : Str → Str → Option Str
  | [], u => some u
  | _ :: _, [] => none
  | p :: ps, c :: cs =>
    if p = '.' then (if c = '\n' then none else matchDotCI ps cs)
    else if ciEqCh p c then matchDotCI ps cs else none

/-- Case-sensitive variant of `matchDotCI` (for the flag-less education split). -/
def matchDotCS : Str → Str → Option Str
  | [], u => some u
  | _ :: _, [] => none
  | p :: ps, c :: cs =>
    if p = '.' then (if c = '\n' then none else matchDotCS ps cs)
    else if p = c then matchDotCS ps cs else none

def eatDigits : Nat → Str → Option (Str × Str)
  | 0, u => some ([], u)
  | _ + 1, [] => none
  | n + 1, c :: cs =>
    if c.isDigit then (eatDigits n cs).map (fun pr => (c :: pr.1, pr.2)) else none

def eatWs (u : Str) : Str × Str := List.span isPyWs u

def eatLetters (u : Str) : Str × Str := List.span Char.isAlpha u

def dashChars : List Char := ['-', '–', '—']

def eatDash : Str → Option (Str × Str)
  | [] => none
  | c :: cs => if dashChars.contains c then some ([c], cs) else none

def eatSpaceChar : Str → Option Str
  | c :: cs => if c = ' ' then some cs else none
  | [] => none

/-- Generic leftmost search: try `f` at every position, tracking the previous
character (for word-boundary tests); the first hit wins, as in `re.search`. -/
def scanOpt (f : Option Char → Str → Option Str) : Option Char → Str → Option Str
  | prev, [] => f prev []
  | prev, c :: cs =>
    match f prev (c :: cs) with
    | some r => some r
    | none => scanOpt f (some c) cs

/- ## Keyword data (verbatim from `main.py`) -/

def education_indicators : List Str :=
  (["education", "academic", "degree", "university", "college", "school", "institute"]).map String.toList

def degree_indicators : List Str :=
  (["bachelor", "master", "phd", "b.tech", "m.tech", "b.e", "m.e", "mba", "b.sc",
    "m.sc", "b.com", "m.com", "b.a", "m.a"]).map String.toList

def eduTerminators : List Str :=
  (["experience", "work", "employment", "professional", "projects", "skills"]).map String.toList

def experience_indicators : List Str :=
  (["experience", "employment", "work history", "professional experience", "career"]).map String.toList

def expTerminators : List Str :=
  (["education", "projects", "skills", "certifications"]).map String.toList

def project_indicators : List Str :=
  (["projects", "personal projects", "academic projects"]).map String.toList

def projTerminators : List Str :=
  (["experience", "education", "skills", "certifications"]).map String.toList

/- ## Section segmentation (the per-kind line loop of lines 85-102, 159-176, 241-258) -/

/-- The section-collection loop: for each line, (1) a short line containing an
own-kind indicator opens/continues the section and is appended (with
`continue`, so the termination test is skipped); (2) otherwise, while open, a
short non-empty line containing a terminator keyword breaks out of the loop
without being appended; (3) otherwise, while open, a non-blank line is
appended.  Returns the appended `(position, line)` pairs in order. -/
def sectionScanAux (inds terms : List Str) : Bool → Nat → List Str → List (Nat × Str)
  | _, _, [] => []
  | inSec, i, l :: rest =>
    if containsAny inds (pyStrip (pyLower l)) ∧ (pyStrip (pyLower l)).length < 30 then
      (i, l) :: sectionScanAux inds terms true (i + 1) rest
    else if inSec ∧ pyStrip (pyLower l) ≠ [] ∧ (pyStrip (pyLower l)).length < 30 ∧
        containsAny terms (pyStrip (pyLower l)) then
      []
    else if inSec ∧ pyStrip l ≠ [] then
      (i, l) :: sectionScanAux inds terms inSec (i + 1) rest
    else
      sectionScanAux inds terms inSec (i + 1) rest

/-- `section_text`: each appended line followed by `'\n'`. -/
def appendedText : List (Nat × Str) → Str
  | [] => []
  | (_, l) :: rest => l ++ '\n' :: appendedText rest

def eduScan (lines : List Str) : List (Nat × Str) :=
  sectionScanAux education_indicators eduTerminators false 0 lines

def expScan (lines : List Str) : List (Nat × Str) :=
  sectionScanAux experience_indicators expTerminators false 0 lines

def projScan (lines : List Str) : List (Nat × Str) :=
  sectionScanAux project_indicators projTerminators false 0 lines

/-- Line positions contributing to the Education section's rawText. -/
def eduPositions (t : Str) : List Nat := (eduScan (pySplitLines t)).map Prod.fst

def expPositions (t : Str) : List Nat := (expScan (pySplitLines t)).map Prod.fst

def projPositions (t : Str) : List Nat := (projScan (pySplitLines t)).map Prod.fst

def eduSectionText (t : Str) : Str := appendedText (eduScan (pySplitLines t))

def expSectionText (t : Str) : Str := appendedText (expScan (pySplitLines t))

def projSectionText (t : Str) : Str := appendedText (projScan (pySplitLines t))

/- ## Entry splitting -/

def splitNLAux (p : Str → Bool) (acc : Str) : Str → List Str
  | [] => [acc.reverse]
  | c :: rest =>
    if c = '\n' ∧ p rest then acc.reverse :: splitNLAux p [] rest
    else splitNLAux p (c :: acc) rest

/-- `re.split(r'\n(?=...)', s)`: split at every newline whose following text
satisfies the lookahead, consuming only the newline. -/
def splitOnNLBefore (p : Str → Bool) (s : Str) : List Str := splitNLAux p [] s

def startsWith4Digits : Str → Bool
  | a :: b :: c :: d :: _ => a.isDigit && b.isDigit && c.isDigit && d.isDigit
  | _ => false

/-- Lookahead of the education split (line 107, no flags, so case-sensitive;
the unescaped dots of `b.tech` etc. act as wildcards): `\d{4}` or
`\b(?:<degree keyword>)\b` at the start of the text after the newline. -/
def eduAnchor (u : Str) : Bool :=
  startsWith4Digits u ||
  degree_indicators.any (fun kw =>
    match matchDotCS kw u with
    | some rest => !(wordO rest.head?)
    | none => false)

/-- `\b(?:19|20)\d{2}\b` at the head of `u`, given the previous character. -/
def yearHere (prev : Option Char) (u : Str) : Bool :=
  match u with
  | a :: b :: c :: d :: rest =>
    (!(wordO prev)) && ((a = '1' && b = '9') || (a = '2' && b = '0')) &&
      c.isDigit && d.isDigit && !(wordO rest.head?)
  | _ => false

def yearInFirstLine (prev : Option Char) : Str → Bool
  | [] => false
  | c :: cs =>
    if c = '\n' then false
    else yearHere prev (c :: cs) || yearInFirstLine (some c) cs

/-- Lookahead of the experience fallback split (line 188): `.*` cannot cross a
newline, so the test is whether the first line after the split point contains
a word-bounded 19xx/20xx year. -/
def expFallbackAnchor (u : Str) : Bool := yearInFirstLine none u

def runThenStop (cls : Char → Bool) (stop : Char) : Str → Bool
  | [] => false
  | c :: cs => if cls c then runThenStop cls stop cs else c = stop

/-- Lookahead of the projects split (line 263): bullet, `\d+\.`, `\d+\)` or `\w+:`. -/
def projAnchor : Str → Bool
  | [] => false
  | c :: cs =>
    c = '•' || c = '*' || c = '-' ||
    (c.isDigit && (runThenStop Char.isDigit '.' cs || runThenStop Char.isDigit ')' cs)) ||
    (isWordChar c && runThenStop isWordChar ':' cs)

/- ## The experience date pattern (lines 181/215), with its capturing groups -/

def monthsList : List Str :=
  (["jan", "feb", "mar", "apr", "may", "jun", "jul", "aug", "sep", "oct", "nov", "dec"]).map String.toList

def eatMonth (u : Str) : Option (Str × Str) := monthsList.findSome? (fun m => eatCI m u)

/-- `\b(jan|...)[a-z]* \d{4}\s*[-–—]\s*(jan|...)[a-z]* \d{4}` (IGNORECASE).
Returns the match length and groups 1-3. -/
def dateBranch1 (prev : Option Char) (u : Str) :
    Option (Nat × Option Str × Option Str × Option Str) :=
  if wordO prev != wordO u.head? then
    (eatMonth u).bind fun pr1 =>
    (eatSpaceChar (eatLetters pr1.2).2).bind fun r3 =>
    (eatDigits 4 r3).bind fun pr4 =>
    (eatDash (eatWs pr4.2).2).bind fun pr6 =>
    (eatMonth (eatWs pr6.2).2).bind fun pr8 =>
    (eatSpaceChar (eatLetters pr8.2).2).bind fun r10 =>
    (eatDigits 4 r10).map fun pr11 =>
      (u.length - pr11.2.length, some pr1.1, some pr8.1, (none : Option Str))
  else none

/-- `\b\d{4}\s*[-–—]\s*\d{4}`. -/
def dateBranch2 (prev : Option Char) (u : Str) :
    Option (Nat × Option Str × Option Str × Option Str) :=
  if wordO prev != wordO u.head? then
    (eatDigits 4 u).bind fun pr1 =>
    (eatDash (eatWs pr1.2).2).bind fun pr2 =>
    (eatDigits 4 (eatWs pr2.2).2).map fun pr3 =>
      (u.length - pr3.2.length, (none : Option Str), (none : Option Str), (none : Option Str))
  else none

/-- `\b\d{4}\s*[-–—]\s*(present|current|now)\b` (IGNORECASE). -/
def dateBranch3 (prev : Option Char) (u : Str) :
    Option (Nat × Option Str × Option Str × Option Str) :=
  if wordO prev != wordO u.head? then
    (eatDigits 4 u).bind fun pr1 =>
    (eatDash (eatWs pr1.2).2).bind fun pr2 =>
    (let r := (eatWs pr2.2).2
     (["present", "current", "now"].map String.toList).findSome? fun w =>
       (eatCI w r).bind fun pr =>
         if wordO pr.2.head? then none
         else some (u.length - pr.2.length, (none : Option Str), (none : Option Str), some pr.1))
  else none

/-- The full date pattern: ordered alternation of the three branches. -/
def dateMatchHere (prev : Option Char) (u : Str) :
    Option (Nat × Option Str × Option Str × Option Str) :=
  match dateBranch1 prev u with
  | some r => some r
  | none =>
    match dateBranch2 prev u with
    | some r => some r
    | none => dateBranch3 prev u

/-- `re.split(date_pattern, s)`: the pattern has three capturing groups, so for
every match the three group values (None when the group did not participate)
are inserted between the text pieces — exactly Python's behaviour. -/
def pySplitDateAux : Nat → Option Char → Str → Str → List (Option Str)
  | 0, _, acc, u => [some (acc.reverse ++ u)]
  | fuel + 1, prev, acc, u =>
    match dateMatchHere prev u with
    | some (n, g1, g2, g3) =>
      some acc.reverse :: g1 :: g2 :: g3 ::
        pySplitDateAux fuel ((u.take n).getLast?) [] (u.drop n)
    | none =>
      match u with
      | [] => [some acc.reverse]
      | c :: cs => pySplitDateAux fuel (some c) (c :: acc) cs

def pySplitDate (s : Str) : List (Option Str) := pySplitDateAux (s.length + 1) none [] s

/-- `re.search(duration_pattern, entry, re.IGNORECASE).group(0)` — the same
date pattern written with non-capturing groups (line 215). -/
def dateSearchAux : Nat → Option Char → Str → Option Str
  | 0, _, _ => none
  | fuel + 1, prev, u =>
    match dateMatchHere prev u with
    | some (n, _, _, _) => some (u.take n)
    | none =>
      match u with
      | [] => none
      | c :: cs => dateSearchAux fuel (some c) cs

def dateSearch (s : Str) : Option Str := dateSearchAux (s.length + 1) none s

/- ## Education field extraction (lines 113-136) -/

def takeThroughNL : Str → Str
  | [] => []
  | c :: cs => if c = '\n' then [c] else c :: takeThroughNL cs

/-- `\b<ind>[s]?\b.*?(?:\n|$)` (IGNORECASE) at the head of `u`. -/
def degIndHere (ind : Str) (prev : Option Char) (u : Str) : Option Str :=
  if wordO prev then none
  else
    match matchDotCI ind u with
    | none => none
    | some rest =>
      let n0 := u.length - rest.length
      match rest with
      | [] => some (u.take n0)
      | c :: cs =>
        if ciEqCh 's' c then
          if wordO cs.head? then none
          else some (u.take (n0 + 1) ++ takeThroughNL cs)
        else if isWordChar c then none
        else some (u.take n0 ++ takeThroughNL rest)

/-- First (in list order) degree indicator with a match anywhere in the entry;
`match.group(0).strip()`. -/
def findDegree (e : Str) : Option Str :=
  degree_indicators.findSome? (fun ind =>
    (scanOpt (degIndHere ind) none e).map pyStrip)

def instWords : List Str :=
  (["university", "college", "institute", "school"]).map String.toList

def wordOrWs (c : Char) : Bool := isWordChar c || isPyWs c

/-- `\b(?:university|college|institute|school) of [\w\s]+` (IGNORECASE) at the
head of `u`. -/
def inst1Here (prev : Option Char) (u : Str) : Option Str :=
  if wordO prev then none
  else
    instWords.findSome? fun w =>
      (eatCI w u).bind fun pr =>
      (eatCI (" of ".toList) pr.2).bind fun pr2 =>
        let run := (List.span wordOrWs pr2.2).1
        if run = [] then none else some (pr.1 ++ pr2.1 ++ run)

/-- `[\w\s]+ (?:university|college|institute|school)\b` (IGNORECASE) anchored at
the start of `u`: the greedy class run backtracks from its maximal length. -/
def inst2Descend (u : Str) : Nat → Option Str
  | 0 => none
  | n + 1 =>
    (match u.drop (n + 1) with
     | ' ' :: rest2 =>
       instWords.findSome? fun w =>
         (eatCI w rest2).bind fun pr =>
           if wordO pr.2.head? then none else some (u.take (n + 1) ++ ' ' :: pr.1)
     | _ => none).orElse fun _ => inst2Descend u n

def inst2Here (u : Str) : Option Str :=
  inst2Descend u ((List.span wordOrWs u).1.length)

/-- Ordered institution patterns; `match.group(0).strip()` of the first that hits. -/
def findInstitution (e : Str) : Option Str :=
  ((scanOpt inst1Here none e).orElse fun _ =>
    scanOpt (fun _ u => inst2Here u) none e).map pyStrip

/-- `\b20\d{2}\b|\b19\d{2}\b` at the head of `u`. -/
def yearCore (prev : Option Char) (u : Str) : Option (Str × Str) :=
  if wordO prev then none
  else
    match u with
    | a :: b :: c :: d :: rest =>
      if ((a = '2' && b = '0') || (a = '1' && b = '9')) && c.isDigit && d.isDigit &&
          !(wordO rest.head?) then
        some ([a, b, c, d], rest)
      else none
    | _ => none

/-- The optional `(?:\s*-\s*(?:\b20\d{2}\b|\b19\d{2}\b|present|current|now))?`
tail (IGNORECASE; the words carry no trailing `\b`). -/
def yearOptTail (u : Str) : Option Str :=
  let w1r := eatWs u
  match w1r.2 with
  | '-' :: r2 =>
    let w2r := eatWs r2
    let prevc : Char := match w2r.1.reverse with | x :: _ => x | [] => '-'
    match yearCore (some prevc) w2r.2 with
    | some pr => some (w1r.1 ++ '-' :: (w2r.1 ++ pr.1))
    | none =>
      (["present", "current", "now"].map String.toList).findSome? fun w =>
        (eatCI w w2r.2).map fun pr => w1r.1 ++ '-' :: (w2r.1 ++ pr.1)
  | _ => none

def yearHereFull (prev : Option Char) (u : Str) : Option Str :=
  (yearCore prev u).map fun pr =>
    match yearOptTail pr.2 with
    | some tl => pr.1 ++ tl
    | none => pr.1

/-- `year_match.group(0)` of the year pattern (no strip in the source). -/
def findYear (e : Str) : Option Str := scanOpt yearHereFull none e

/- ## Experience field extraction (lines 194-218) -/

def roleNouns : List Str :=
  (["Developer", "Engineer", "Manager", "Designer", "Analyst", "Consultant",
    "Director", "Lead", "Architect", "Specialist", "Intern"]).map String.toList

def titleClass (c : Char) : Bool := c.isAlpha || isPyWs c

/-- Backtracking over the greedy `[A-Za-z\s]{2,30}` of the title pattern. -/
def titleTry (u : Str) : Nat → Option Str
  | 0 => none
  | n + 1 =>
    (if n + 1 < 2 then none
     else
       let body := (u.drop 1).take (n + 1)
       if body.length = n + 1 && body.all titleClass then
         roleNouns.findSome? fun r =>
           if strStartsWith r (u.drop (1 + (n + 1))) then
             some (u.take (1 + (n + 1) + r.length))
           else none
       else none).orElse fun _ => titleTry u n

/-- `re.findall(r'^([A-Z][A-Za-z\s]{2,30}(?:Developer|...))', entry)`: the `^`
anchors at position 0 (no MULTILINE), so at most one candidate exists;
`title_candidates[0].strip()`. -/
def findTitle (e : Str) : Option Str :=
  match e with
  | [] => none
  | c :: _ => if c.isUpper then (titleTry e 30).map pyStrip else none

def compWords : List Str := (["at", "with", "for"]).map String.toList

/-- `(?:at|with|for) ([\w\s]+)` (case-sensitive, no word boundary) at the head
of `u`; returns group 1. -/
def comp1Here (u : Str) : Option Str :=
  compWords.findSome? fun w =>
    if strStartsWith w u then
      match u.drop w.length with
      | ' ' :: r2 =>
        let run := (List.span wordOrWs r2).1
        if run = [] then none else some run
      | _ => none
    else none

def compSuffixes : List Str := (["Inc.", "LLC", "Ltd."]).map String.toList

/-- `^([\w\s]+) (?:Inc\.|LLC|Ltd\.)` anchored at 0; returns group 1. -/
def comp2Descend (u : Str) : Nat → Option Str
  | 0 => none
  | n + 1 =>
    (match u.drop (n + 1) with
     | ' ' :: rest2 =>
       compSuffixes.findSome? fun w =>
         if strStartsWith w rest2 then some (u.take (n + 1)) else none
     | _ => none).orElse fun _ => comp2Descend u n

def comp2 (u : Str) : Option Str :=
  comp2Descend u ((List.span wordOrWs u).1.length)

def wordWsComma (c : Char) : Bool := isWordChar c || isPyWs c || c = ','

/-- `^([\w\s,]+)(?:\n|$)` anchored at 0; returns group 1.  (`$` also matches
just before a final newline, which the `\n` alternative already covers.) -/
def comp3Descend (u : Str) : Nat → Option Str
  | 0 => none
  | n + 1 =>
    (if (u.drop (n + 1)).head? = some '\n' || n + 1 = u.length then
       some (u.take (n + 1))
     else none).orElse fun _ => comp3Descend u n

def comp3 (u : Str) : Option Str :=
  comp3Descend u ((List.span wordWsComma u).1.length)

/-- Ordered company patterns; `group(1).strip()` of the first that hits. -/
def findCompany (e : Str) : Option Str :=
  (((scanOpt (fun _ u => comp1Here u) none e).orElse fun _ => comp2 e).orElse
    fun _ => comp3 e).map pyStrip

/- ## Records and per-entry processing -/

structure EducationRecord where
  degree : Str
  institution : Str
  year : Str
deriving DecidableEq, Repr

structure ExperienceRecord where
  title : Str
  company : Str
  duration : Str
deriving DecidableEq, Repr

structure ProjectRecord where
  name : Str
  description : Str
deriving DecidableEq, Repr

inductive PyError where
  | attributeError
deriving DecidableEq, Repr

deriving instance DecidableEq for Except

/-- Python truthiness of an `Optional[str]`. -/
def pyTruthy : Option Str → Bool
  | none => false
  | some s => !s.isEmpty

/-- Python `x or default` for `x : Optional[str]`. -/
def pyOrStr : Option Str → Str → Str
  | none, d => d
  | some s, d => if s = [] then d else s

def processEduEntries : List Str → List EducationRecord
  | [] => []
  | e :: rest =>
    if (pyStrip e).length < 10 then processEduEntries rest
    else
      if pyTruthy (findDegree e) || pyTruthy (findInstitution e) then
        ⟨pyOrStr (findDegree e) ("Degree not specified".toList),
         pyOrStr (findInstitution e) ("Institution not specified".toList),
         pyOrStr (findYear e) ("Year not specified".toList)⟩ :: processEduEntries rest
      else processEduEntries rest

def extract_education (t : Str) : List EducationRecord :=
  if eduSectionText t ≠ [] then
    processEduEntries (splitOnNLBefore eduAnchor (eduSectionText t))
  else []

def excludedExpEntries : List Str :=
  (["experience", "work experience", "employment history"]).map String.toList

/-- The experience entry loop: `entry.strip()` on a `None` entry (inserted by
`re.split`'s capturing groups) raises `AttributeError`. -/
def processExpEntries : List (Option Str) → Except PyError (List ExperienceRecord)
  | [] => .ok []
  | none :: _ => .error .attributeError
  | some e :: rest =>
    if (pyStrip e).length < 15 || (pyLower (pyStrip e)) ∈ excludedExpEntries then
      processExpEntries rest
    else
      if pyTruthy (findTitle e) || pyTruthy (findCompany e) then
        (processExpEntries rest).map
          (⟨pyOrStr (findTitle e) ("Position not specified".toList),
            pyOrStr (findCompany e) ("Company not specified".toList),
            pyOrStr (dateSearch e) ("Duration not specified".toList)⟩ :: ·)
      else processExpEntries rest

/-- The entry list of `extract_experience`: the primary split on the date
pattern, or — when that produced at most one piece — the fallback split
before year-bearing lines. -/
def expEntries (t : Str) : List (Option Str) :=
  if (pySplitDate (expSectionText t)).length ≤ 1 then
    (splitOnNLBefore expFallbackAnchor (expSectionText t)).map some
  else pySplitDate (expSectionText t)

def extract_experience (t : Str) : Except PyError (List ExperienceRecord) :=
  if expSectionText t ≠ [] then processExpEntries (expEntries t) else .ok []

def excludedProjEntries : List Str :=
  (["projects", "personal projects", "academic projects"]).map String.toList

def projNameStripSet : List Char := "•*-\t .)".toList

def joinNL : List Str → Str
  | [] => []
  | [x] => x
  | x :: y :: ys => x ++ '\n' :: joinNL (y :: ys)

def processProjEntries : List Str → List ProjectRecord
  | [] => []
  | e0 :: rest =>
    if (pyStrip e0).length < 15 || pyLower (pyStrip e0) ∈ excludedProjEntries then
      processProjEntries rest
    else
      if pyStripSet projNameStripSet ((pySplitLines (pyStrip e0)).headD []) ≠ [] then
        ⟨pyStripSet projNameStripSet ((pySplitLines (pyStrip e0)).headD []),
         if (pySplitLines (pyStrip e0)).length > 1 then
           pyStrip (joinNL (pySplitLines (pyStrip e0)).tail)
         else []⟩ :: processProjEntries rest
      else processProjEntries rest

def extract_projects (t : Str) : List ProjectRecord :=
  if projSectionText t ≠ [] then
    processProjEntries (splitOnNLBefore projAnchor (projSectionText t))
  else []

/- ## Identity extraction (lines 296-314) -/

def nameBanned : List Str :=
  (["@", "http", "resume", "cv", "email", "phone"]).map String.toList

def extract_name_go : List Str → Option Str
  | [] => none
  | l :: rest =>
    if 5 < l.length ∧ l.length < 40 ∧ containsAny nameBanned (pyLower l) = false then
      some (pyStrip l)
    else extract_name_go rest

/-- `extract_name`: scan `lines[:5]`; note the length test uses the raw line. -/
def extract_name (t : Str) : Option Str := extract_name_go ((pySplitLines t).take 5)

def localClass (c : Char) : Bool :=
  c.isAlphanum || c = '.' || c = '_' || c = '%' || c = '+' || c = '-'

def domClass (c : Char) : Bool := c.isAlphanum || c = '.' || c = '-'

/-- Backtracking over the greedy `[a-zA-Z0-9.-]+` of the email pattern: the
longest split followed by `\.[a-zA-Z]{2,}` wins. -/
def emailDomDescend (u : Str) : Nat → Option Nat
  | 0 => none
  | n + 1 =>
    (match u.drop (n + 1) with
     | '.' :: rest2 =>
       let run := (List.span Char.isAlpha rest2).1
       if run.length ≥ 2 then some ((n + 1) + 1 + run.length) else none
     | _ => none).orElse fun _ => emailDomDescend u n

/-- `[a-zA-Z0-9._%+-]+@[a-zA-Z0-9.-]+\.[a-zA-Z]{2,}` at the head of `u`. -/
def emailHere (u : Str) : Option Str :=
  let loc := (List.span localClass u).1
  if loc = [] then none
  else
    match u.drop loc.length with
    | '@' :: r2 =>
      (emailDomDescend r2 ((List.span domClass r2).1.length)).map fun k =>
        u.take (loc.length + 1 + k)
    | _ => none

def extract_email (t : Str) : Option Str := scanOpt (fun _ u => emailHere u) none t

def sepClass (c : Char) : Bool := c = '-' || c = '.' || isPyWs c

def optEat (cls : Char → Bool) (u : Str) : Str :=
  match u with
  | c :: cs => if cls c then cs else c :: cs
  | [] => []

/-- `\(?\d{3}\)?[-.\s]?\d{3}[-.\s]?\d{4}` at the head of `u`; returns the rest. -/
def phonePart2 (u : Str) : Option Str :=
  let u1 := match u with | '(' :: cs => cs | other => other
  (eatDigits 3 u1).bind fun pr1 =>
    let u2 := match pr1.2 with | ')' :: cs => cs | other => other
    (eatDigits 3 (optEat sepClass u2)).bind fun pr2 =>
      (eatDigits 4 (optEat sepClass pr2.2)).map fun pr3 => pr3.2

/-- The optional `(\+\d{1,3}[-.\s]?)?` head, greedy over the digit count. -/
def phonePart1Then (u : Str) : Option Str :=
  match u with
  | '+' :: r1 =>
    (((eatDigits 3 r1).bind fun pr => phonePart2 (optEat sepClass pr.2)).orElse fun _ =>
      ((eatDigits 2 r1).bind fun pr => phonePart2 (optEat sepClass pr.2))).orElse fun _ =>
      ((eatDigits 1 r1).bind fun pr => phonePart2 (optEat sepClass pr.2))
  | _ => none

def phoneHere (u : Str) : Option Str :=
  match phonePart1Then u with
  | some rest => some (u.take (u.length - rest.length))
  | none => (phonePart2 u).map fun rest => u.take (u.length - rest.length)

def extract_phone (t : Str) : Option Str := scanOpt (fun _ u => phoneHere u) none t

/- ## Skill matching (lines 316-337) -/

def skill_keywords : List Str :=
  (["python", "javascript", "react", "angular", "vue", "node.js", "express",
    "mongodb", "sql", "mysql", "postgresql", "nosql", "firebase", "aws", "azure",
    "gcp", "docker", "kubernetes", "ci/cd", "jenkins", "git", "github", "gitlab",
    "html", "css", "sass", "less", "bootstrap", "tailwind", "typescript",
    "java", "c++", "c#", ".net", "php", "ruby", "go", "rust", "swift",
    "android", "ios", "flutter", "react native", "electron",
    "machine learning", "deep learning", "ai", "data science", "data analysis",
    "tensorflow", "pytorch", "keras", "scikit-learn", "pandas", "numpy",
    "agile", "scrum", "kanban", "jira", "confluence",
    "communication", "leadership", "project management", "team work",
    "problem solving", "critical thinking", "time management"]).map String.toList

/-- `\b<escaped skill>\b` at the head of `u`: the literal must be present and
both ends must sit on a word boundary. -/
def wbAt (pat : Str) (prev : Option Char) (u : Str) : Bool :=
  strStartsWith pat u && (wordO prev != wordO pat.head?) &&
    (wordO pat.getLast? != wordO ((u.drop pat.length).head?))

def wbSearchAux (pat : Str) (prev : Option Char) : Str → Bool
  | [] => false
  | c :: cs => wbAt pat prev (c :: cs) || wbSearchAux pat (some c) cs

/-- `re.search(r'\b' + re.escape(skill) + r'\b', text)`. -/
def wbSearch (pat : Str) (s : Str) : Bool := wbSearchAux pat none s

def extract_skills_go (tl : Str) : List Str → List Str
  | [] => []
  | k :: ks =>
    if wbSearch k tl then k :: extract_skills_go tl ks else extract_skills_go tl ks

/-- The skill loop: append each vocabulary entry whose word-bounded form occurs
in `text.lower()`, in vocabulary order. -/
def extract_skills (t : Str) : List Str := extract_skills_go (pyLower t) skill_keywords

/- ## Aggregation (the core of `parse_resume`, lines 394-411) -/

structure ParsedResume where
  name : Option Str
  email : Option Str
  phone : Option Str
  skills : List Str
  education : List EducationRecord
  experience : List ExperienceRecord
  projects : List ProjectRecord
deriving DecidableEq, Repr

/-- The extraction pipeline on a fixed text; the only fallible step is
`extract_experience`. -/
def extract (t : Str) : Except PyError ParsedResume :=
  match extract_experience t with
  | .error e => .error e
  | .ok exp =>
    .ok ⟨extract_name t, extract_email t, extract_phone t, extract_skills t,
         extract_education t, exp, extract_projects t⟩

/- ## Spec-side definitions -/

/-- The §4.1 experience header keyword set, as the spec states it. -/
def spec41ExperienceKeywords : List Str :=
  (["experience", "employment", "work history", "professional experience", "career"]).map String.toList

/-- Name extraction as the claim words it: the first of the first 5 lines whose
TRIMMED length is strictly between 5 and 40 and which contains no banned
substring. -/
def specName_claim (t : Str) : Option Str :=
  (((pySplitLines t).take 5).find? (fun l =>
    decide (5 < (pyStrip l).length) && decide ((pyStrip l).length < 40) &&
      !(containsAny nameBanned (pyLower l)))).map pyStrip

/-- The amended name predicate: the length test applies to the raw line. -/
def nameOkRaw (l : Str) : Bool :=
  decide (5 < l.length) && decide (l.length < 40) && !(containsAny nameBanned (pyLower l))

/-- Name extraction as amended: first of the first 5 lines whose RAW length is
strictly between 5 and 40 with no banned substring, returned trimmed. -/
def specName_amended (t : Str) : Option Str :=
  (((pySplitLines t).take 5).find? nameOkRaw).map pyStrip

/- ## Concrete documents used by the claims -/

/-- A minimal resume whose experience section contains a year range. -/
def c1T : Str := ("Experience\nSoftware Engineer at Acme Corp\n2020 - 2021\n").toList

/-- The spec's §8 scenario text. -/
def janeT : Str :=
  ("Jane Smith\njane.smith@mail.com\n555-222-3344\n\nEducation\nBS Computer Science\nState University\n2019\n\nExperience\nSoftware Engineer at Acme Corp\n2020 - Present\n").toList

/-- A document whose experience section contains the anchor "2019 - 2020". -/
def d3T : Str := ("Experience\nDeveloper at Acme Corp\n2019 - 2020\nBuilt many things here\n").toList

/-- "Academic Projects" contains an education keyword and a projects keyword. -/
def d4T : Str := ("Academic Projects\nBuilt a parser tool in 2021\n").toList

/-- An education section followed by the line "Career" (a §4.1 experience keyword). -/
def d5T : Str := ("Education\nUniversity of Example\nCareer\nBuilt compilers for fun\n").toList

/-- Education witness document for sentinel completeness. -/
def w7T : Str :=
  ("Education\nBachelor of Science stuff\nUniversity of Somewhere\n2019 - 2021 fine\n").toList

/-- Experience witness document (no date range, so the fallback split runs). -/
def w7xT : Str := ("Experience\nSenior Developer at Globex working since 2019 happily\n").toList

def rec7 : EducationRecord :=
  ⟨("Bachelor of Science stuff").toList, ("University of Somewhere").toList,
   ("Year not specified").toList⟩

def rec7x : ExperienceRecord :=
  ⟨("Senior Developer").toList, ("Globex working since 2019 happily").toList,
   ("Duration not specified").toList⟩

def emptyResume : ParsedResume := ⟨none, none, none, [], [], [], []⟩

/- ## Helper lemmas -/

theorem pyOrStr_ne_nil (o : Option Str) (d : Str) (hd : d ≠ []) : pyOrStr o d ≠ [] := by
  cases o with
  | none => exact hd
  | some s =>
    simp only [pyOrStr]
    split
    · exact hd
    · next h => exact h

theorem processEduEntries_fields : ∀ (es : List Str) (r : EducationRecord),
    r ∈ processEduEntries es → r.degree ≠ [] ∧ r.institution ≠ [] ∧ r.year ≠ [] := by
  intro es
  induction es with
  | nil => intro r h; simp [processEduEntries] at h
  | cons e rest ih =>
    intro r h
    simp only [processEduEntries] at h
    split at h
    · exact ih r h
    · split at h
      · rcases List.mem_cons.mp h with h1 | h2
        · subst h1
          exact ⟨pyOrStr_ne_nil _ _ (by decide), pyOrStr_ne_nil _ _ (by decide),
                 pyOrStr_ne_nil _ _ (by decide)⟩
        · exact ih r h2
      · exact ih r h

theorem processExpEntries_fields : ∀ (es : List (Option Str)) (l : List ExperienceRecord)
    (r : ExperienceRecord), processExpEntries es = .ok l → r ∈ l →
    r.title ≠ [] ∧ r.company ≠ [] ∧ r.duration ≠ [] := by
  intro es
  induction es with
  | nil =>
    intro l r h hm
    simp only [processExpEntries] at h
    cases h
    simp at hm
  | cons e rest ih =>
    intro l r h hm
    cases e with
    | none => simp [processExpEntries] at h
    | some s =>
      simp only [processExpEntries] at h
      split at h
      · exact ih l r h hm
      · split at h
        · cases hrest : processExpEntries rest with
          | error e2 => rw [hrest] at h; simp [Except.map] at h
          | ok l2 =>
            rw [hrest] at h
            simp only [Except.map, Except.ok.injEq] at h
            subst h
            rcases List.mem_cons.mp hm with h1 | h2
            · subst h1
              exact ⟨pyOrStr_ne_nil _ _ (by decide), pyOrStr_ne_nil _ _ (by decide),
                     pyOrStr_ne_nil _ _ (by decide)⟩
            · exact ih l2 r hrest h2
        · exact ih l r h hm

theorem splitNLAux_ne_nil (p : Str → Bool) : ∀ (s acc : Str), splitNLAux p acc s ≠ [] := by
  intro s
  induction s with
  | nil => intro acc; simp [splitNLAux]
  | cons c rest ih =>
    intro acc
    simp only [splitNLAux]
    split
    · simp
    · exact ih (c :: acc)

theorem joinNL_splitNLAux (p : Str → Bool) :
    ∀ (s acc : Str), joinNL (splitNLAux p acc s) = acc.reverse ++ s := by
  intro s
  induction s with
  | nil => intro acc; simp [splitNLAux, joinNL]
  | cons c rest ih =>
    intro acc
    simp only [splitNLAux]
    split
    · next hc =>
      obtain ⟨hc1, -⟩ := hc
      cases hsp : splitNLAux p [] rest with
      | nil => exact absurd hsp (splitNLAux_ne_nil p rest [])
      | cons z zs =>
        have hj : joinNL (z :: zs) = rest := by
          have hh := ih ([] : Str)
          rw [hsp] at hh
          simpa using hh
        rw [joinNL, hj, hc1]
    · rw [ih (c :: acc)]
      simp

theorem extract_name_go_eq (ls : List Str) :
    extract_name_go ls = (ls.find? nameOkRaw).map pyStrip := by
  induction ls with
  | nil => rfl
  | cons l rest ih =>
    by_cases h : nameOkRaw l = true
    · have hp : 5 < l.length ∧ l.length < 40 ∧ containsAny nameBanned (pyLower l) = false := by
        have hh := h
        simp only [nameOkRaw, Bool.and_eq_true, decide_eq_true_eq, Bool.not_eq_true'] at hh
        exact ⟨hh.1.1, hh.1.2, hh.2⟩
      simp only [extract_name_go, if_pos hp, List.find?_cons_of_pos _ h, Option.map_some']
    · have hp : ¬ (5 < l.length ∧ l.length < 40 ∧ containsAny nameBanned (pyLower l) = false) := by
        intro hc
        apply h
        simp only [nameOkRaw, Bool.and_eq_true, decide_eq_true_eq, Bool.not_eq_true']
        exact ⟨⟨hc.1, hc.2.1⟩, hc.2.2⟩
      simp only [extract_name_go, if_neg hp, List.find?_cons_of_neg _ h]
      exact ih

theorem extract_skills_go_eq (tl : Str) :
    ∀ ks : List Str, extract_skills_go tl ks = ks.filter (fun k => wbSearch k tl) := by
  intro ks
  induction ks with
  | nil => rfl
  | cons k rest ih =>
    simp only [extract_skills_go, List.filter_cons]
    cases h : wbSearch k tl <;> simp [h, ih]

/- ## The claims -/

/-- C1: the spec says the extraction pipeline never raises; in fact
`extract_experience` raises `AttributeError` whenever the experience section
contains a date range, because `re.split` with a capturing date pattern
inserts `None` entries which are then given to `.strip()`.  Evaluated at a
concrete failing input. -/
theorem C1_pipeline_raises_on_date_range :
    extract c1T = Except.error PyError.attributeError := by decide

/-- C2: on the spec's Jane Smith scenario text the code extracts the stated
name, email and phone, but the single education record has year "Year not
specified" (the "2019" line is split into its own entry and dropped by the
10-character floor, and the institution match swallows the whole entry), and
the pipeline then raises `AttributeError` inside `extract_experience` instead
of producing an experience record. -/
theorem C2_scenario_actual_behavior :
    extract_name janeT = some (("Jane Smith").toList) ∧
    extract_email janeT = some (("jane.smith@mail.com").toList) ∧
    extract_phone janeT = some (("555-222-3344").toList) ∧
    extract_education janeT =
      [⟨("Degree not specified").toList,
        ("Education\nBS Computer Science\nState University").toList,
        ("Year not specified").toList⟩] ∧
    extract janeT = Except.error PyError.attributeError := by
  exact ⟨by decide, by decide, by decide, by decide, by decide⟩

/-- C3 counterexample: in the experience section of `d3T` the date range
"2019 - 2020" is an anchor occurrence (the date pattern matches it), yet after
the primary split no produced entry contains it — the split consumed the
anchor, so no concatenation of the entry spans can reconstruct the rawText. -/
theorem C3_experience_split_consumes_anchor :
    dateSearch (expSectionText d3T) = some (("2019 - 2020").toList) ∧
    isSubstrOf (("2019 - 2020").toList) (expSectionText d3T) = true ∧
    (pySplitDate (expSectionText d3T)).all
      (fun e => match e with
        | some piece => !(isSubstrOf (("2019").toList) piece)
        | none => true) = true := by decide

/-- C3 as amended: for the education and projects splitters (and the experience
fallback splitter), which split at a newline whose following text satisfies the
anchor lookahead, the split is lossless: intercalating the entries with the
consumed newline separators reconstructs the section text exactly.  (The
experience PRIMARY splitter consumes its date-range anchors and is exempt.) -/
theorem C3_lookahead_newline_split_lossless (p : Str → Bool) (s : Str) :
    joinNL (splitOnNLBefore p s) = s := by
  simpa using joinNL_splitNLAux p s []

/-- C4 counterexample: for `d4T` the claim's pairwise disjointness of section
line positions fails — line 0 ("Academic Projects") is in both the Education
and the Projects span. -/
theorem C4_sections_not_disjoint :
    ¬ (∀ p, p ∈ eduPositions d4T → p ∉ projPositions d4T) := by
  intro h
  exact h 0 (by decide) (by decide)

/-- C4 as amended: the three section scans run independently with their own
keyword sets, so their spans can overlap; a line matching two kinds' keyword
sets (here "Academic Projects": education keyword "academic" and projects
keyword "projects") contributes to both kinds' rawText, as does the body line
that follows it. -/
theorem C4_shared_line_in_two_sections :
    0 ∈ eduPositions d4T ∧ 0 ∈ projPositions d4T ∧
    1 ∈ eduPositions d4T ∧ 1 ∈ projPositions d4T := by decide

/-- C5 counterexample: "career" is a §4.1 experience header keyword, the line
"Career" is non-empty with trimmed length under 30, yet while the Education
section of `d5T` is open that line does NOT close it — it is appended to the
Education rawText (position 2), because the code's education terminator set is
{experience, work, employment, professional, projects, skills}, not the other
kinds' §4.1 keyword sets. -/
theorem C5_career_keyword_does_not_close :
    ("career").toList ∈ spec41ExperienceKeywords ∧
    isSubstrOf (("career").toList) (pyStrip (pyLower (("Career").toList))) = true ∧
    (pyStrip (("Career").toList)).length < 30 ∧
    2 ∈ eduPositions d5T ∧
    isSubstrOf (("Career").toList) (eduSectionText d5T) = true := by decide

/-- C5 as amended: while a section is open, a non-empty line with trimmed
length under 30 that contains a keyword of the section's own fixed terminator
list (education: experience/work/employment/professional/projects/skills;
experience: education/projects/skills/certifications; projects:
experience/education/skills/certifications) and no own-kind indicator closes
the section, and the triggering line is not appended to its rawText. -/
theorem C5_terminator_closes_section (inds terms : List Str) (i : Nat) (l : Str)
    (rest : List Str)
    (h1 : containsAny inds (pyStrip (pyLower l)) = false)
    (h2 : pyStrip (pyLower l) ≠ [])
    (h3 : (pyStrip (pyLower l)).length < 30)
    (h4 : containsAny terms (pyStrip (pyLower l)) = true) :
    sectionScanAux inds terms true i (l :: rest) = [] := by
  have hno : ¬ (containsAny inds (pyStrip (pyLower l)) = true ∧
      (pyStrip (pyLower l)).length < 30) := by
    rintro ⟨hc, -⟩
    rw [h1] at hc
    exact Bool.false_ne_true hc
  simp only [sectionScanAux]
  rw [if_neg hno]
  simp [h2, h3, h4]

/-- C5 witness: while the Education section is open (after "University of
Example"), the line "Experience" closes it and is not appended — the spec's
own scenario. -/
theorem C5_terminator_closes_section_witness :
    sectionScanAux education_indicators eduTerminators true 2
      [("Experience").toList, ("leftover line").toList] = [] :=
  C5_terminator_closes_section education_indicators eduTerminators 2
    (("Experience").toList) [("leftover line").toList]
    (by decide) (by decide) (by decide) (by decide)

/-- C6 counterexample: on the text "   Jo   " the code returns "Jo" (the raw
line has length 8, which passes `5 < len(line) < 40`), while the claim's
trimmed-length rule (trimmed length 2) would return null. -/
theorem C6_untrimmed_length_counterexample :
    extract_name (("   Jo   ").toList) = some (("Jo").toList) ∧
    specName_claim (("   Jo   ").toList) = none := by decide

/-- C6 as amended: name extraction scans only the first 5 lines and returns,
trimmed, the first line whose RAW (untrimmed) length is strictly between 5 and
40 and which contains none of the banned substrings case-insensitively; if no
such line exists among the first 5 it returns null. -/
theorem C6_name_equals_amended_spec : ∀ t : Str, extract_name t = specName_amended t := by
  intro t
  exact extract_name_go_eq _

/-- C7: every education record the code emits has non-empty degree,
institution and year, and every experience record emitted on the non-raising
path has non-empty title, company and duration: each field is either a
non-empty extracted value or the fixed sentinel. -/
theorem C7_sentinel_completeness :
    (∀ (t : Str) (r : EducationRecord), r ∈ extract_education t →
      r.degree ≠ [] ∧ r.institution ≠ [] ∧ r.year ≠ []) ∧
    (∀ (t : Str) (l : List ExperienceRecord) (r : ExperienceRecord),
      extract_experience t = .ok l → r ∈ l →
      r.title ≠ [] ∧ r.company ≠ [] ∧ r.duration ≠ []) := by
  constructor
  · intro t r h
    unfold extract_education at h
    split at h
    · exact processEduEntries_fields _ r h
    · simp at h
  · intro t l r h hm
    unfold extract_experience at h
    split at h
    · exact processExpEntries_fields _ l r h hm
    · cases h
      simp at hm

/-- C7 witness: concrete records produced by the code, with the theorem
applied to them. -/
theorem C7_sentinel_completeness_witness :
    (rec7 ∈ extract_education w7T ∧
      (rec7.degree ≠ [] ∧ rec7.institution ≠ [] ∧ rec7.year ≠ [])) ∧
    (extract_experience w7xT = .ok [rec7x] ∧
      (rec7x.title ≠ [] ∧ rec7x.company ≠ [] ∧ rec7x.duration ≠ [])) :=
  ⟨⟨by decide, C7_sentinel_completeness.1 w7T rec7 (by decide)⟩,
   ⟨by decide, C7_sentinel_completeness.2 w7xT [rec7x] rec7x (by decide) (by decide)⟩⟩

/-- C8: the skills output is exactly the fixed vocabulary filtered by
word-bounded occurrence in the lowercased text, hence a sublist of the
vocabulary (declaration order, independent of document order); the spec's
scenario holds, also with the document order of the skills reversed. -/
theorem C8_skills_vocab_filter :
    (∀ t : Str, extract_skills t = skill_keywords.filter (fun k => wbSearch k (pyLower t))) ∧
    (∀ t : Str, (extract_skills t).Sublist skill_keywords) ∧
    extract_skills (("python javascript leadership").toList) =
      [("python").toList, ("javascript").toList, ("leadership").toList] ∧
    extract_skills (("leadership javascript python").toList) =
      [("python").toList, ("javascript").toList, ("leadership").toList] := by
  refine ⟨?_, ?_, by decide, by decide⟩
  · intro t
    exact extract_skills_go_eq (pyLower t) skill_keywords
  · intro t
    rw [extract_skills, extract_skills_go_eq]
    exact List.filter_sublist _

/-- C9: the pipeline is a pure function of the input text — two runs on the
same text that produce a result produce the same `ParsedResume`. -/
theorem C9_determinism : ∀ (t : Str) (r₁ r₂ : ParsedResume),
    extract t = .ok r₁ → extract t = .ok r₂ → r₁ = r₂ := by
  intro t r₁ r₂ h1 h2
  rw [h1] at h2
  exact Except.ok.inj h2

/-- C9 witness: the empty text, on which the pipeline succeeds. -/
theorem C9_determinism_witness :
    extract [] = Except.ok emptyResume ∧ emptyResume = emptyResume :=
  ⟨by decide, C9_determinism [] emptyResume emptyResume (by decide) (by decide)⟩

/-- C10: while a section is open, a line of trimmed length under 30 containing
an own-kind indicator hits the header branch (whose `continue` skips the
termination test), so it is appended and the section stays open — for ANY
terminator list, i.e. even when the line also contains a terminator keyword. -/
theorem C10_own_header_precedence (inds terms : List Str) (i : Nat) (l : Str)
    (rest : List Str)
    (h1 : containsAny inds (pyStrip (pyLower l)) = true)
    (h2 : (pyStrip (pyLower l)).length < 30) :
    sectionScanAux inds terms true i (l :: rest) =
      (i, l) :: sectionScanAux inds terms true (i + 1) rest := by
  simp only [sectionScanAux]
  rw [if_pos ⟨h1, h2⟩]

/-- C10 witness: "academic experience" contains the education indicator
"academic" AND the education terminator "experience"; while the Education
section is open it is appended and the scan continues. -/
theorem C10_own_header_precedence_witness :
    sectionScanAux education_indicators eduTerminators true 3
      [("academic experience").toList] =
      [(3, ("academic experience").toList)] := by
  rw [C10_own_header_precedence education_indicators eduTerminators 3
      (("academic experience").toList) [] (by decide) (by decide)]
  decide
